import Mathlib

/-!
Shallow embedding of `src/classification/dietary_restrictions.py`.

The script classifies free-text dietary-restriction survey answers with an LLM.
External effects (the chat-completion calls, `json.loads`, `os.path.exists`) are
modelled as explicit function parameters; everything else is translated directly
from the source, line references included in the doc comments.
-/

/-- Python JSON values, as produced by `json.loads`. -/
inductive Json where
  | null
  | bool (b : Bool)
  | num (n : Int)
  | str (s : String)
  | arr (elems : List Json)
  | obj (fields : List (String × Json))

/-- Python exception kinds raised by the library calls the script uses. -/
inductive PyErr where
  | jsonDecodeError
  | attributeError
  | typeError
  deriving DecidableEq

/-- One CSV row as yielded by `csv.DictReader`: an association list from column
name to cell text. -/
abbrev Row := List (String × String)

/-- Python `s.strip()`: the string with leading and trailing whitespace removed. -/
def pyStrip (s : String) : String :=
  ⟨((s.data.dropWhile Char.isWhitespace).reverse.dropWhile Char.isWhitespace).reverse⟩

/-- Python `s.lower()`: every character lowercased. -/
def pyLower (s : String) : String :=
  ⟨s.data.map Char.toLower⟩

/-- Python `s.startswith(pre)`. -/
def pyStartsWith (s pre : String) : Bool :=
  pre.data.isPrefixOf s.data

/-- Python `s.endswith(suf)`. -/
def pyEndsWith (s suf : String) : Bool :=
  suf.data.isSuffixOf s.data

/-- Python `row.get(key, default)` on a `DictReader` row. -/
def rowGet (row : Row) (key dflt : String) : String :=
  (row.lookup key).getD dflt

/-- Line 19 / line 122: `row.get("approval_status", "").strip().lower() == "approved"`. -/
def approvedRow (row : Row) : Bool :=
  pyLower (pyStrip (rowGet row "approval_status" "")) == "approved"

/-- Python `d.get(key, default)` on a JSON value: on an object, the value at `key`
or the default; on any other value, raises `AttributeError`. -/
def pyDictGet (j : Json) (key : String) (dflt : Json) : Except PyErr Json :=
  match j with
  | .obj fields => .ok ((fields.lookup key).getD dflt)
  | _ => .error .attributeError

/-- Python iteration over a JSON value (`for item in text_list`, line 130): arrays
yield their elements, strings yield one-character strings, dicts yield their keys,
everything else raises `TypeError`. -/
def pyIter (j : Json) : Except PyErr (List Json) :=
  match j with
  | .arr elems => .ok elems
  | .str s => .ok (s.toList.map fun c => .str (String.singleton c))
  | .obj fields => .ok (fields.map fun kv => .str kv.1)
  | _ => .error .typeError

/-- Lines 19–22 of `get_unique_categories`: one row's contribution to the
unique-value set — approved rows add their trimmed, nonempty target-column value. -/
def addRowValue (column_name : String) (acc : List String) (row : Row) : List String :=
  if approvedRow row then
    let value := pyStrip (rowGet row column_name "")
    if value ≠ "" then acc.insert value else acc
  else acc

/-- Lines 13–22 of `get_unique_categories`: the unique-value set collected over all
rows of all CSV files, modelled as a duplicate-free list. -/
def get_unique_values (column_name : String) (files : List (List Row)) : List String :=
  files.foldl (fun acc rows => rows.foldl (addRowValue column_name) acc) []

/-- Lines 53–54 of `get_unique_categories`:
`json.loads(completion.choices[0].message.content)` followed by
`.get('categories', [])`.  The argument is the outcome of `json.loads` on the
completion content: `.error ()` when the content is not valid JSON, in which case
`json.loads` raises `JSONDecodeError`, which nothing in the function catches. -/
def categories_from_content (loadResult : Except Unit Json) : Except PyErr Json :=
  match loadResult with
  | .error _ => .error .jsonDecodeError
  | .ok j => pyDictGet j "categories" (.arr [])

/-- External effects used by row classification.  `classify use_openai categories text`
models one full `classify_dietary_restrictions(text, categories, use_openai)` call
(lines 57–94): the chat completion plus
`json.loads(...).get("dietary_restrictions", [])`; `.ok` carries the returned
category-name list and `.error` any exception raised inside the call (transport
failure, invalid JSON content, `.get` on a non-object).  `loads` models `json.loads`
applied to a row's raw text (line 128), `.error` standing for `JSONDecodeError`. -/
structure Oracle where
  classify : Bool → List String → Json → Except Unit (List String)
  loads : String → Except Unit Json

/-- One issued classification call: the `use_openai` flag and the text argument. -/
abbrev Call := Bool × Json

/-- Lines 129–134: classify each item of the parsed list and extend the accumulated
classification, stopping at the first call that raises.  Returns the try-block
outcome together with the classify calls issued (a raising call is still issued). -/
def classifyItemList (o : Oracle) (categories : List String) :
    List Json → Except Unit (List String) × List Call
  | [] => (.ok [], [])
  | item :: rest =>
    match o.classify false categories item with
    | .error e => (.error e, [(false, item)])
    | .ok c =>
      let (res, calls) := classifyItemList o categories rest
      (res.map (fun tail => c ++ tail), (false, item) :: calls)

/-- Lines 125–139: the body of the `try:` block for one nonempty row text: texts
bracketed like a JSON array are parsed and classified item by item; other texts are
classified as a single unit.  Returns the outcome and the classify calls issued. -/
def tryClassify (o : Oracle) (categories : List String) (text : String) :
    Except Unit (List String) × List Call :=
  if pyStartsWith text "[" && pyEndsWith text "]" then
    match o.loads text with
    | .error e => (.error e, [])
    | .ok textList =>
      match pyIter textList with
      | .error _ => (.error (), [])
      | .ok items => classifyItemList o categories items
  else
    match o.classify false categories (.str text) with
    | .ok c => (.ok c, [(false, .str text)])
    | .error e => (.error e, [(false, .str text)])

/-- Lines 125–149: the guarded classification of one nonempty row text, with the
`except` fallback: on any exception in the try block, one OpenAI-provider call is
made on the whole raw text; if that also raises, the classification degrades to
`["Error"]`. -/
def classifyText (o : Oracle) (categories : List String) (text : String) :
    List String × List Call :=
  match tryClassify o categories text with
  | (.ok classification, calls) => (classification, calls)
  | (.error _, calls) =>
    match o.classify true categories (.str text) with
    | .ok classification => (classification, calls ++ [(true, .str text)])
    | .error _ => (["Error"], calls ++ [(true, .str text)])

/-- Lines 122–153: one CSV row's contribution — the category names appended to the
file's classification list and the classify calls issued.  Unapproved rows are
skipped entirely; approved rows with empty trimmed text get `["No restrictions"]`
without any call. -/
def processRow (o : Oracle) (categories : List String) (column_name : String)
    (row : Row) : List String × List Call :=
  if approvedRow row then
    let text := pyStrip (rowGet row column_name "")
    if text ≠ "" then classifyText o categories text
    else (["No restrictions"], [])
  else ([], [])

/-- Lines 119–153: `for i, row in enumerate(reader)` over one file's rows, with the
`if test_run and i >= 10: break` guard, concatenating each row's appended category
names and issued calls. -/
def processRows (o : Oracle) (categories : List String) (column_name : String)
    (test_run : Bool) : Nat → List Row → List String × List Call
  | _, [] => ([], [])
  | i, row :: rest =>
    if test_run ∧ 10 ≤ i then ([], [])
    else
      let (c, calls) := processRow o categories column_name row
      let (c', calls') := processRows o categories column_name test_run (i + 1) rest
      (c ++ c', calls ++ calls')

/-- Lines 157–158: `Counter(cats)[c]`, the count written out for category `c` of one
file whose accumulated classification list is `cats`. -/
def counterCount (cats : List String) (c : String) : Nat :=
  cats.count c

/-- Line 100: the candidate filename `f"{base_name}({counter}){extension}"`. -/
def mkName (base_name extension : String) (counter : Nat) : String :=
  base_name ++ "(" ++ toString counter ++ ")" ++ extension

/-- Lines 98–103: the `while True` search of `get_unique_filename`, with `ex`
modelling `os.path.exists` and explicit fuel standing for the unbounded loop. -/
def uniqueFilenameLoop (ex : String → Bool) (base_name extension : String) :
    Nat → Nat → Option String
  | 0, _ => none
  | fuel + 1, counter =>
    if ex (mkName base_name extension counter) then
      uniqueFilenameLoop ex base_name extension fuel (counter + 1)
    else some (mkName base_name extension counter)

/-- Lines 97–103: `get_unique_filename(base_name, extension)`, the loop started at
counter 1. -/
def get_unique_filename (ex : String → Bool) (base_name extension : String)
    (fuel : Nat) : Option String :=
  uniqueFilenameLoop ex base_name extension fuel 1

/-! ## Helper lemmas -/

/-- Every call issued inside the loop over parsed list items uses the primary
provider (`use_openai = False`). -/
theorem classifyItemList_calls_false (o : Oracle) (categories : List String)
    (items : List Json) :
    ∀ call ∈ (classifyItemList o categories items).2, call.1 = false := by
  induction items with
  | nil => simp [classifyItemList]
  | cons item rest ih =>
    intro call hcall
    simp only [classifyItemList] at hcall
    cases hcl : o.classify false categories item with
    | error e => simp [hcl] at hcall; simp [hcall]
    | ok c =>
      simp [hcl] at hcall
      rcases hcall with h | h
      · simp [h]
      · exact ih call h

/-- Every call issued inside the try block uses the primary provider. -/
theorem tryClassify_calls_false (o : Oracle) (categories : List String)
    (text : String) :
    ∀ call ∈ (tryClassify o categories text).2, call.1 = false := by
  intro call hcall
  unfold tryClassify at hcall
  by_cases hb : (pyStartsWith text "[" && pyEndsWith text "]") = true
  · rw [if_pos hb] at hcall
    cases hl : o.loads text with
    | error e => simp [hl] at hcall
    | ok textList =>
      simp only [hl] at hcall
      cases hi : pyIter textList with
      | error e => simp [hi] at hcall
      | ok items =>
        simp only [hi] at hcall
        exact classifyItemList_calls_false o categories items call hcall
  · rw [if_neg hb] at hcall
    cases hc : o.classify false categories (.str text) with
    | ok c => simp [hc] at hcall; simp [hcall]
    | error e => simp [hc] at hcall; simp [hcall]

/-- When every item's primary call succeeds, the item loop returns the ordered
concatenation of the per-item results and issues one primary call per item, in
order. -/
theorem classifyItemList_all_ok (o : Oracle) (categories : List String)
    (items : List Json) (res : Json → List String)
    (hok : ∀ item ∈ items, o.classify false categories item = .ok (res item)) :
    classifyItemList o categories items
      = (.ok (items.map res).flatten, items.map fun item => (false, item)) := by
  induction items with
  | nil => simp [classifyItemList]
  | cons item rest ih =>
    have h1 : o.classify false categories item = .ok (res item) :=
      hok item (List.mem_cons_self _ _)
    have h2 : ∀ i ∈ rest, o.classify false categories i = .ok (res i) :=
      fun i hi => hok i (List.mem_cons_of_mem _ hi)
    simp [classifyItemList, h1, ih h2, Except.map]

/-- When the first failing item is reached, the item loop aborts with the calls
issued so far (the successful ones plus the failing one). -/
theorem classifyItemList_first_error (o : Oracle) (categories : List String)
    (good : List Json) (bad : Json) (rest : List Json) (res : Json → List String)
    (hgood : ∀ item ∈ good, o.classify false categories item = .ok (res item))
    (hbad : o.classify false categories bad = .error ()) :
    classifyItemList o categories (good ++ bad :: rest)
      = (.error (), (good.map fun item => (false, item)) ++ [(false, bad)]) := by
  induction good with
  | nil => simp [classifyItemList, hbad]
  | cons g gs ih =>
    have h1 : o.classify false categories g = .ok (res g) :=
      hgood g (List.mem_cons_self _ _)
    have h2 : ∀ i ∈ gs, o.classify false categories i = .ok (res i) :=
      fun i hi => hgood i (List.mem_cons_of_mem _ hi)
    simp [classifyItemList, h1, ih h2, Except.map]

/-- Without the test-run cap the row loop ignores the running index. -/
theorem processRows_false_index (o : Oracle) (categories : List String)
    (column_name : String) (rows : List Row) :
    ∀ i j, processRows o categories column_name false i rows
      = processRows o categories column_name false j rows := by
  induction rows with
  | nil => intro i j; rfl
  | cons row rest ih =>
    intro i j
    simp only [processRows]
    rw [ih (i + 1) (j + 1)]
    simp

/-- The filename loop returns the first candidate, counting up from its starting
counter, whose name does not exist on disk. -/
theorem uniqueFilenameLoop_spec (ex : String → Bool) (base_name extension : String) :
    ∀ fuel counter f, uniqueFilenameLoop ex base_name extension fuel counter = some f →
      ∃ n, counter ≤ n ∧ f = mkName base_name extension n ∧
        ex (mkName base_name extension n) = false ∧
        ∀ m, counter ≤ m → m < n → ex (mkName base_name extension m) = true := by
  intro fuel
  induction fuel with
  | zero => intro counter f h; simp [uniqueFilenameLoop] at h
  | succ fuel ih =>
    intro counter f h
    simp only [uniqueFilenameLoop] at h
    split at h
    next hex =>
      obtain ⟨n, hle, hf, hfree, hall⟩ := ih (counter + 1) f h
      refine ⟨n, by omega, hf, hfree, ?_⟩
      intro m hm1 hm2
      rcases Nat.eq_or_lt_of_le hm1 with heq | hlt
      · rw [← heq]; exact hex
      · exact hall m hlt hm2
    next hex =>
      cases h
      exact ⟨counter, Nat.le_refl _, rfl, by simpa using hex, fun m h1 h2 => by omega⟩

/-- Without the test-run cap, one file's accumulated classification list is the
ordered concatenation of its rows' classification lists. -/
theorem processRows_flat (o : Oracle) (categories : List String) (column_name : String) :
    ∀ (rows : List Row) (i : Nat),
      (processRows o categories column_name false i rows).1
        = (rows.map fun row => (processRow o categories column_name row).1).flatten := by
  intro rows
  induction rows with
  | nil => intro i; simp [processRows]
  | cons row rest ih => intro i; simp [processRows, ih]

/-- With the test-run flag set, processing rows from index `i ≤ 10` equals full
processing of the first `10 - i` remaining rows. -/
theorem processRows_test_run_take (o : Oracle) (categories : List String)
    (column_name : String) :
    ∀ (rows : List Row) (i : Nat), i ≤ 10 →
      processRows o categories column_name true i rows
        = processRows o categories column_name false i (rows.take (10 - i)) := by
  intro rows
  induction rows with
  | nil => intro i hi; simp [processRows]
  | cons row rest ih =>
    intro i hi
    by_cases h10 : 10 ≤ i
    · have hi10 : i = 10 := by omega
      subst hi10
      simp [processRows]
    · simp only [processRows]
      have htake : (10 : Nat) - i = (10 - (i + 1)) + 1 := by omega
      rw [htake, List.take_succ_cons]
      simp only [processRows]
      rw [ih (i + 1) (by omega)]
      simp [h10]

/-! ## Claim theorems -/

/-- C3: for every approved row whose target-column value (missing column included,
read as `""`) strips to the empty string, the classification is exactly
`["No restrictions"]` and no classify call is issued for that row. -/
theorem empty_text_no_restrictions_no_calls (o : Oracle) (categories : List String)
    (column_name : String) (row : Row)
    (happ : approvedRow row = true)
    (hempty : pyStrip (rowGet row column_name "") = "") :
    processRow o categories column_name row = (["No restrictions"], []) := by
  simp [processRow, happ, hempty]

theorem empty_text_no_restrictions_no_calls_witness :
    (approvedRow [("approval_status", "approved")] = true ∧
      pyStrip (rowGet [("approval_status", "approved")] "diet" "") = "") ∧
    processRow ⟨fun _ _ _ => .error (), fun _ => .error ()⟩ [] "diet"
      [("approval_status", "approved")] = (["No restrictions"], []) :=
  ⟨⟨by decide, by decide⟩,
    empty_text_no_restrictions_no_calls _ [] "diet" _ (by decide) (by decide)⟩

/-- C7: whenever `get_unique_filename` returns a path, that path has the shape
`base_name(n)extension` for the smallest `n ≥ 1` whose path does not already exist
on disk; in particular the chosen path never names an existing file. -/
theorem get_unique_filename_least_free (ex : String → Bool)
    (base_name extension : String) (fuel : Nat) (f : String)
    (h : get_unique_filename ex base_name extension fuel = some f) :
    ex f = false ∧
    ∃ n, 1 ≤ n ∧ f = mkName base_name extension n ∧
      ∀ m, 1 ≤ m → m < n → ex (mkName base_name extension m) = true := by
  obtain ⟨n, h1, hf, hfree, hall⟩ :=
    uniqueFilenameLoop_spec ex base_name extension fuel 1 f h
  exact ⟨hf ▸ hfree, n, h1, hf, hall⟩

theorem get_unique_filename_least_free_witness :
    get_unique_filename
        (fun s => s == "classification_results.csv" || s == "classification_results(1).csv")
        "classification_results" ".csv" 5
      = some "classification_results(2).csv" ∧
    ((fun s => s == "classification_results.csv" || s == "classification_results(1).csv")
        "classification_results(2).csv" = false ∧
      ∃ n, 1 ≤ n ∧
        "classification_results(2).csv" = mkName "classification_results" ".csv" n ∧
        ∀ m, 1 ≤ m → m < n →
          (fun s => s == "classification_results.csv" || s == "classification_results(1).csv")
              (mkName "classification_results" ".csv" m) = true) :=
  ⟨by decide,
    get_unique_filename_least_free
      (fun s => s == "classification_results.csv" || s == "classification_results(1).csv")
      "classification_results" ".csv" 5 "classification_results(2).csv" (by decide)⟩

/-- C8: with the test-run flag set, a file's processing is capped to its first 10
rows — rows of index 0 through 9 — and later rows contribute nothing to the
classification list or the issued calls. -/
theorem test_run_caps_first_ten (o : Oracle) (categories : List String)
    (column_name : String) (rows : List Row) :
    processRows o categories column_name true 0 rows
      = processRows o categories column_name false 0 (rows.take 10) := by
  simpa using processRows_test_run_take o categories column_name rows 0 (by omega)

/-- C6: aggregation is additive with no per-row deduplication — the count recorded
for category `c` of one file equals the number of occurrences of `c` across all of
that file's per-row classification lists; in particular rows classified
`["Vegan"]`, `["Vegan", "Gluten-Free"]` and `["No restrictions"]` yield counts
2, 1 and 1. -/
theorem aggregation_additive_counts (o : Oracle) (categories : List String)
    (column_name : String) (rows : List Row) (c : String) :
    (counterCount (processRows o categories column_name false 0 rows).1 c
      = (rows.map fun row =>
          counterCount (processRow o categories column_name row).1 c).sum) ∧
    (counterCount (processRows
        ⟨fun _ _ j => match j with
          | .str "r1" => .ok ["Vegan"]
          | .str "r2" => .ok ["Vegan", "Gluten-Free"]
          | _ => .ok ["No restrictions"],
          fun _ => .error ()⟩ [] "diet" false 0
        [[("approval_status", "approved"), ("diet", "r1")],
         [("approval_status", "approved"), ("diet", "r2")],
         [("approval_status", "approved"), ("diet", "r3")]]).1 "Vegan" = 2 ∧
      counterCount (processRows
        ⟨fun _ _ j => match j with
          | .str "r1" => .ok ["Vegan"]
          | .str "r2" => .ok ["Vegan", "Gluten-Free"]
          | _ => .ok ["No restrictions"],
          fun _ => .error ()⟩ [] "diet" false 0
        [[("approval_status", "approved"), ("diet", "r1")],
         [("approval_status", "approved"), ("diet", "r2")],
         [("approval_status", "approved"), ("diet", "r3")]]).1 "Gluten-Free" = 1 ∧
      counterCount (processRows
        ⟨fun _ _ j => match j with
          | .str "r1" => .ok ["Vegan"]
          | .str "r2" => .ok ["Vegan", "Gluten-Free"]
          | _ => .ok ["No restrictions"],
          fun _ => .error ()⟩ [] "diet" false 0
        [[("approval_status", "approved"), ("diet", "r1")],
         [("approval_status", "approved"), ("diet", "r2")],
         [("approval_status", "approved"), ("diet", "r3")]]).1 "No restrictions" = 1) := by
  refine ⟨?_, rfl, rfl, rfl⟩
  rw [processRows_flat]
  simp [counterCount, List.count_flatten, Function.comp_def]

/-- Shared shape of the fallback path: when the try block raises, the result is the
single OpenAI call's outcome on the whole text (degrading to `["Error"]` when that
call raises too), and the issued calls are the try block's calls followed by that
one fallback call. -/
theorem classifyText_of_try_error (o : Oracle) (categories : List String)
    (text : String) (calls : List Call)
    (h : tryClassify o categories text = (.error (), calls)) :
    classifyText o categories text
      = (match o.classify true categories (.str text) with
          | .ok c => c
          | .error _ => ["Error"],
         calls ++ [(true, .str text)]) := by
  simp only [classifyText, h]
  cases hc : o.classify true categories (.str text) <;> simp [hc]

/-- C4: for a row text that is bracketed and parses as a JSON array whose per-item
classifications all succeed, exactly one primary call is issued per item, in array
order, and the row's classification is the ordered concatenation of the per-item
results. -/
theorem json_array_row_concat_calls (o : Oracle) (categories : List String)
    (text : String) (items : List Json) (res : Json → List String)
    (hpre : pyStartsWith text "[" = true) (hsuf : pyEndsWith text "]" = true)
    (hload : o.loads text = .ok (.arr items))
    (hok : ∀ item ∈ items, o.classify false categories item = .ok (res item)) :
    classifyText o categories text
      = ((items.map res).flatten, items.map fun item => (false, item)) := by
  have htry : tryClassify o categories text
      = (.ok (items.map res).flatten, items.map fun item => (false, item)) := by
    simp only [tryClassify, hpre, hsuf, Bool.and_self, if_true, hload, pyIter]
    exact classifyItemList_all_ok o categories items res hok
  simp [classifyText, htry]

theorem json_array_row_concat_calls_witness :
    classifyText
        ⟨fun _ _ j => match j with | .str "a" => .ok ["Vegan"] | _ => .error (),
          fun s => if s == "[\"a\"]" then .ok (.arr [.str "a"]) else .error ()⟩
        [] "[\"a\"]"
      = ((([Json.str "a"].map fun _ => ["Vegan"]).flatten),
         [Json.str "a"].map fun item => (false, item)) :=
  json_array_row_concat_calls
    ⟨fun _ _ j => match j with | .str "a" => .ok ["Vegan"] | _ => .error (),
      fun s => if s == "[\"a\"]" then .ok (.arr [.str "a"]) else .error ()⟩
    [] "[\"a\"]" [Json.str "a"] (fun _ => ["Vegan"]) (by decide) (by decide) rfl
    (by intro item h; rw [List.mem_singleton] at h; subst h; rfl)

/-- C5: if the guarded classification of a nonempty row text raises, exactly one
fallback (OpenAI) call is attempted — after the primary calls, on that text — and
if it also raises, the classification is exactly `["Error"]`; the row loop always
continues with the next row. -/
theorem fallback_exactly_once_error_sentinel (o : Oracle) (categories : List String)
    (column_name : String) (text : String)
    (hfail : (tryClassify o categories text).1 = .error ()) :
    ((classifyText o categories text).2
        = (tryClassify o categories text).2 ++ [(true, .str text)] ∧
      (classifyText o categories text).2.countP (fun call => call.1 == true) = 1) ∧
    (o.classify true categories (.str text) = .error () →
      (classifyText o categories text).1 = ["Error"]) ∧
    (∀ (tr : Bool) (i : Nat) (row : Row) (rest : List Row), ¬(tr = true ∧ 10 ≤ i) →
      processRows o categories column_name tr i (row :: rest)
        = ((processRow o categories column_name row).1
            ++ (processRows o categories column_name tr (i + 1) rest).1,
           (processRow o categories column_name row).2
            ++ (processRows o categories column_name tr (i + 1) rest).2)) := by
  have hpair : tryClassify o categories text
      = (Except.error (), (tryClassify o categories text).2) := by
    conv_lhs => rw [← Prod.mk.eta (p := tryClassify o categories text)]
    rw [hfail]
  have hmain := classifyText_of_try_error o categories text _ hpair
  have hall := tryClassify_calls_false o categories text
  refine ⟨⟨?_, ?_⟩, ?_, ?_⟩
  · rw [hmain]
  · rw [hmain]
    simp only [List.countP_append]
    have hz : (tryClassify o categories text).2.countP
        (fun call => call.1 == true) = 0 := by
      rw [List.countP_eq_zero]
      intro call hc
      simp [hall call hc]
    rw [hz]
    simp [List.countP_cons]
  · intro herr
    rw [hmain, herr]
  · intro tr i row rest hnot
    simp only [processRows]
    rw [if_neg hnot]

theorem fallback_exactly_once_error_sentinel_witness :
    ((classifyText ⟨fun _ _ _ => .error (), fun _ => .error ()⟩ [] "beef").2
        = (tryClassify ⟨fun _ _ _ => .error (), fun _ => .error ()⟩ [] "beef").2
            ++ [(true, .str "beef")] ∧
      (classifyText ⟨fun _ _ _ => .error (), fun _ => .error ()⟩ [] "beef").2.countP
          (fun call => call.1 == true) = 1) ∧
    ((Oracle.classify ⟨fun _ _ _ => .error (), fun _ => .error ()⟩ true [] (.str "beef")
        = .error () →
      (classifyText ⟨fun _ _ _ => .error (), fun _ => .error ()⟩ [] "beef").1
        = ["Error"])) ∧
    (∀ (tr : Bool) (i : Nat) (row : Row) (rest : List Row), ¬(tr = true ∧ 10 ≤ i) →
      processRows ⟨fun _ _ _ => .error (), fun _ => .error ()⟩ [] "diet" tr i (row :: rest)
        = ((processRow ⟨fun _ _ _ => .error (), fun _ => .error ()⟩ [] "diet" row).1
            ++ (processRows ⟨fun _ _ _ => .error (), fun _ => .error ()⟩ [] "diet"
                  tr (i + 1) rest).1,
           (processRow ⟨fun _ _ _ => .error (), fun _ => .error ()⟩ [] "diet" row).2
            ++ (processRows ⟨fun _ _ _ => .error (), fun _ => .error ()⟩ [] "diet"
                  tr (i + 1) rest).2)) :=
  fallback_exactly_once_error_sentinel
    ⟨fun _ _ _ => .error (), fun _ => .error ()⟩ [] "diet" "beef" rfl

/-- C9: for a bracketed row text that parses as a JSON array in which some item's
classification raises, the fallback call is made once on the row's entire raw text
as a single unit, all item results accumulated before the failure are discarded,
and the row's classification is exactly the fallback result — or `["Error"]` when
the fallback raises too. -/
theorem array_subtext_failure_fallback_whole_text (o : Oracle)
    (categories : List String) (text : String) (good : List Json) (bad : Json)
    (rest : List Json) (res : Json → List String)
    (hpre : pyStartsWith text "[" = true) (hsuf : pyEndsWith text "]" = true)
    (hload : o.loads text = .ok (.arr (good ++ bad :: rest)))
    (hgood : ∀ item ∈ good, o.classify false categories item = .ok (res item))
    (hbad : o.classify false categories bad = .error ()) :
    classifyText o categories text
      = (match o.classify true categories (.str text) with
          | .ok c => c
          | .error _ => ["Error"],
         ((good.map fun item => (false, item)) ++ [(false, bad)])
           ++ [(true, .str text)]) := by
  have htry : tryClassify o categories text
      = (.error (), (good.map fun item => (false, item)) ++ [(false, bad)]) := by
    simp only [tryClassify, hpre, hsuf, Bool.and_self, if_true, hload, pyIter]
    exact classifyItemList_first_error o categories good bad rest res hgood hbad
  exact classifyText_of_try_error o categories text _ htry

theorem array_subtext_failure_fallback_whole_text_witness :
    classifyText
        ⟨fun useO _ j =>
            if useO then .error ()
            else match j with | .str "a" => .ok ["Vegan"] | _ => .error (),
          fun _ => .ok (.arr [.str "a", .str "b"])⟩
        [] "[\"a\",\"b\"]"
      = (["Error"],
         [(false, Json.str "a"), (false, Json.str "b"),
          (true, Json.str "[\"a\",\"b\"]")]) :=
  array_subtext_failure_fallback_whole_text
    ⟨fun useO _ j =>
        if useO then .error ()
        else match j with | .str "a" => .ok ["Vegan"] | _ => .error (),
      fun _ => .ok (.arr [.str "a", .str "b"])⟩
    [] "[\"a\",\"b\"]" [Json.str "a"] (Json.str "b") [] (fun _ => ["Vegan"])
    (by decide) (by decide) rfl
    (by intro item h; rw [List.mem_singleton] at h; subst h; rfl) rfl

/-- Membership in the unique-value accumulator after one file's rows. -/
theorem foldl_addRowValue_mem (column_name : String) (v : String) :
    ∀ (rows : List Row) (acc : List String),
      v ∈ rows.foldl (addRowValue column_name) acc ↔
        v ∈ acc ∨ ∃ row ∈ rows, approvedRow row = true ∧
          pyStrip (rowGet row column_name "") = v ∧ v ≠ "" := by
  intro rows
  induction rows with
  | nil => intro acc; simp
  | cons row rest ih =>
    intro acc
    rw [List.foldl_cons, ih]
    constructor
    · rintro (hacc | ⟨r, hr, h⟩)
      · unfold addRowValue at hacc
        by_cases happ : approvedRow row = true
        · rw [if_pos happ] at hacc
          by_cases hne : pyStrip (rowGet row column_name "") ≠ ""
          · rw [if_pos hne] at hacc
            rw [List.mem_insert_iff] at hacc
            rcases hacc with heq | hacc
            · exact Or.inr ⟨row, List.mem_cons_self _ _, happ, heq.symm, heq ▸ hne⟩
            · exact Or.inl hacc
          · rw [if_neg hne] at hacc
            exact Or.inl hacc
        · rw [if_neg happ] at hacc
          exact Or.inl hacc
      · exact Or.inr ⟨r, List.mem_cons_of_mem _ hr, h⟩
    · rintro (hacc | ⟨r, hr, happ, hval, hne⟩)
      · left
        unfold addRowValue
        by_cases happ : approvedRow row = true
        · rw [if_pos happ]
          by_cases hne : pyStrip (rowGet row column_name "") ≠ ""
          · rw [if_pos hne]
            exact List.mem_insert_iff.mpr (Or.inr hacc)
          · rw [if_neg hne]
            exact hacc
        · rw [if_neg happ]
          exact hacc
      · rcases List.mem_cons.mp hr with heq | hmem
        · left
          subst heq
          unfold addRowValue
          rw [if_pos happ, hval, if_pos hne]
          exact List.mem_insert_iff.mpr (Or.inl rfl)
        · exact Or.inr ⟨r, hmem, happ, hval, hne⟩

/-- C10: the unique-value set of `get_unique_categories` holds exactly the stripped
nonempty target-column values of approved rows; a missing column reads as `""` and
is skipped, so the set never contains the empty string and an approved row lacking
the column contributes nothing. -/
theorem unique_values_mem_iff (column_name : String) (files : List (List Row))
    (v : String) :
    ("" ∉ get_unique_values column_name files) ∧
    (v ∈ get_unique_values column_name files ↔
      v ≠ "" ∧ ∃ rows ∈ files, ∃ row ∈ rows, approvedRow row = true ∧
        pyStrip (rowGet row column_name "") = v) := by
  have key : ∀ (fs : List (List Row)) (acc : List String) (w : String),
      w ∈ fs.foldl (fun a rows => rows.foldl (addRowValue column_name) a) acc ↔
        w ∈ acc ∨ ∃ rows ∈ fs, ∃ row ∈ rows, approvedRow row = true ∧
          pyStrip (rowGet row column_name "") = w ∧ w ≠ "" := by
    intro fs
    induction fs with
    | nil => intro acc w; simp
    | cons rows rest ih =>
      intro acc w
      rw [List.foldl_cons, ih, foldl_addRowValue_mem]
      constructor
      · rintro ((h | ⟨r, hr, h1, h2, h3⟩) | ⟨rs, hrs, r, hr, h⟩)
        · exact Or.inl h
        · exact Or.inr ⟨rows, List.mem_cons_self _ _, r, hr, h1, h2, h3⟩
        · exact Or.inr ⟨rs, List.mem_cons_of_mem _ hrs, r, hr, h⟩
      · rintro (h | ⟨rs, hrs, r, hr, h⟩)
        · exact Or.inl (Or.inl h)
        · rcases List.mem_cons.mp hrs with heq | hmem
          · subst heq
            exact Or.inl (Or.inr ⟨r, hr, h⟩)
          · exact Or.inr ⟨rs, hmem, r, hr, h⟩
  constructor
  · intro h
    rw [get_unique_values, key] at h
    rcases h with h | ⟨_, _, _, _, _, _, h⟩
    · simp at h
    · exact h rfl
  · rw [get_unique_values, key]
    simp only [List.not_mem_nil, false_or]
    constructor
    · rintro ⟨rs, hrs, r, hr, h1, h2, h3⟩
      exact ⟨h3, rs, hrs, r, hr, h1, h2⟩
    · rintro ⟨h3, rs, hrs, r, hr, h1, h2⟩
      exact ⟨rs, hrs, r, hr, h1, h2, h3⟩

/-- C1 as stated fails on the code: an approved, nonempty-text row whose classify
call succeeds with the empty list — as the `.get("dietary_restrictions", [])`
default on line 93 produces for a response object lacking that key — appends zero
category names to the count table. -/
theorem approved_row_zero_entries_cex :
    approvedRow [("approval_status", "approved"), ("diet", "beef")] = true ∧
    pyStrip (rowGet [("approval_status", "approved"), ("diet", "beef")] "diet" "")
      ≠ "" ∧
    (processRow ⟨fun _ _ _ => .ok [], fun _ => .error ()⟩ [] "diet"
        [("approval_status", "approved"), ("diet", "beef")]).1 = [] :=
  ⟨by decide, by decide, rfl⟩

/-- C1 amended: every approved row contributes exactly its classification list,
which is `["No restrictions"]` for empty stripped text, a successful provider
result (primary try block or fallback — possibly the empty list, contributing zero
entries), or `["Error"]` after both fail; it is guaranteed nonempty except in the
successful-provider-result cases. -/
theorem processRow_classification_cases (o : Oracle) (categories : List String)
    (column_name : String) (row : Row) (happ : approvedRow row = true) :
    (processRow o categories column_name row).1 = ["No restrictions"] ∨
    (tryClassify o categories (pyStrip (rowGet row column_name ""))).1
      = .ok (processRow o categories column_name row).1 ∨
    o.classify true categories (.str (pyStrip (rowGet row column_name "")))
      = .ok (processRow o categories column_name row).1 ∨
    (processRow o categories column_name row).1 = ["Error"] := by
  simp only [processRow, happ, if_true]
  by_cases ht : pyStrip (rowGet row column_name "") ≠ ""
  · rw [if_pos ht]
    rcases htc : tryClassify o categories (pyStrip (rowGet row column_name ""))
      with ⟨r, calls⟩
    cases r with
    | ok c =>
      right; left
      simp [classifyText, htc]
    | error e =>
      cases hf : o.classify true categories (.str (pyStrip (rowGet row column_name "")))
        with
      | ok c =>
        right; right; left
        simp [classifyText, htc, hf]
      | error e2 =>
        right; right; right
        simp [classifyText, htc, hf]
  · rw [if_neg ht]
    left
    rfl

theorem processRow_classification_cases_witness :
    (processRow ⟨fun _ _ _ => .error (), fun _ => .error ()⟩ [] "diet"
        [("approval_status", "approved")]).1 = ["No restrictions"] ∨
    (tryClassify ⟨fun _ _ _ => .error (), fun _ => .error ()⟩ []
        (pyStrip (rowGet [("approval_status", "approved")] "diet" ""))).1
      = .ok (processRow ⟨fun _ _ _ => .error (), fun _ => .error ()⟩ [] "diet"
          [("approval_status", "approved")]).1 ∨
    Oracle.classify ⟨fun _ _ _ => .error (), fun _ => .error ()⟩ true []
        (.str (pyStrip (rowGet [("approval_status", "approved")] "diet" "")))
      = .ok (processRow ⟨fun _ _ _ => .error (), fun _ => .error ()⟩ [] "diet"
          [("approval_status", "approved")]).1 ∨
    (processRow ⟨fun _ _ _ => .error (), fun _ => .error ()⟩ [] "diet"
        [("approval_status", "approved")]).1 = ["Error"] :=
  processRow_classification_cases ⟨fun _ _ _ => .error (), fun _ => .error ()⟩ []
    "diet" [("approval_status", "approved")] (by decide)

/-- C2 as stated fails on the code: when the completion content is not valid JSON,
`json.loads` on line 53 raises `JSONDecodeError`, which nothing in
`get_unique_categories` catches — the function does not return the empty list, the
exception escapes the call boundary. -/
theorem categories_bad_json_raises_cex :
    categories_from_content (.error ()) = .error .jsonDecodeError ∧
    categories_from_content (.error ()) ≠ .ok (.arr []) :=
  ⟨rfl, fun h => Except.noConfusion h⟩

/-- C2 amended: a completion content that parses as a JSON object lacking the
"categories" key yields the empty list with no exception, while content that is
not valid JSON raises the decode error past the call boundary. -/
theorem categories_missing_key_empty (fields : List (String × Json))
    (h : fields.lookup "categories" = none) :
    categories_from_content (.ok (.obj fields)) = .ok (.arr []) ∧
    categories_from_content (.error ()) = .error .jsonDecodeError := by
  constructor
  · simp [categories_from_content, pyDictGet, h]
  · rfl

theorem categories_missing_key_empty_witness :
    categories_from_content (.ok (.obj [("reply", Json.str "none")])) = .ok (.arr []) ∧
    categories_from_content (.error ()) = .error .jsonDecodeError :=
  categories_missing_key_empty [("reply", Json.str "none")] rfl
